import Mathlib

/-!
Verification of the thought lifecycle and orchestration engine of the
wishdumb repository (src/App.tsx and the serverless relay bundled with it).

The definitions below are a shallow embedding of the source: coordinates,
velocities, opacities and timestamps are rationals (the source uses JS
doubles only for small exact decimals such as 0.45, 0.25 and 0.1, all of
which are represented exactly here), stateful React updates become explicit
state passing, and the awaited generation call becomes an explicit
Except-valued outcome supplied by the caller.
-/

namespace Wishdumb

/-- Input method tag recorded on a thought by addThought
(src/App.tsx line 137): how the utterance arrived. -/
inductive Method
  | voice
  | text
deriving DecidableEq, Inhabited

/-- One thought entity, with exactly the fields assigned by the object
literal in addThought (src/App.tsx lines 127-138): id, text, position x y,
velocity vx vy, opacity, scale, createdAt timestamp in milliseconds, and
the input method. The Thought type itself is imported from ./types, which
is not under src; the fields here are the ones the source constructs and
reads. -/
structure Thought where
  id : String
  text : String
  x : ℚ
  y : ℚ
  vx : ℚ
  vy : ℚ
  opacity : ℚ
  scale : ℚ
  createdAt : ℚ
  method : Method
deriving DecidableEq, Inhabited

/-- Ambient browser values read during one call to addThought: the viewport
size (window.innerWidth, window.innerHeight), the two Math.random() draws
used for the velocity components, the Date.now() timestamp, and the fresh
random id string. -/
structure Env where
  innerWidth : ℚ
  innerHeight : ℚ
  rand1 : ℚ
  rand2 : ℚ
  now : ℚ
  freshId : String
deriving DecidableEq, Inhabited

/-- The thought literal built by addThought (src/App.tsx lines 127-138):
spawned at (innerWidth / 2, innerHeight / 2 - 80), with each velocity
component (rand - 0.5) * 0.25, opacity 0, scale 1, createdAt the current
time. -/
def mkThought (env : Env) (text : String) (method : Method) : Thought :=
  { id := env.freshId
    text := text
    x := env.innerWidth / 2
    y := env.innerHeight / 2 - 80
    vx := (env.rand1 - 1/2) * (1/4)
    vy := (env.rand2 - 1/2) * (1/4)
    opacity := 0
    scale := 1
    createdAt := env.now
    method := method }

/-- Store insertion from addThought (src/App.tsx lines 140-144): the new
thought is prepended and the list truncated to the first MAX_THOUGHTS
entries. Modelled from the spec: the constant MAX_THOUGHTS is imported
from ./constants, a file that is not under src, and the spec fixes no
numeric value for it, so the cap is an explicit parameter here. -/
def addThought (cap : Nat) (env : Env) (text : String) (method : Method)
    (prev : List Thought) : List Thought :=
  (mkThought env text method :: prev).take cap

/-- A sequence of store insertions, each with its own ambient environment,
text and method, folded over an initial store. -/
def pushAll (cap : Nat) (evs : List (Env × String × Method))
    (prev : List Thought) : List Thought :=
  evs.foldl (fun acc e => addThought cap e.1 e.2.1 e.2.2 acc) prev

/-- JS String.prototype.trim as used in the guard of processInput
(src/App.tsx line 148): the string with leading and trailing whitespace
removed. Defined structurally over the character list so that concrete
instances evaluate. -/
def jsTrim (s : String) : String :=
  ⟨((s.data.dropWhile Char.isWhitespace).reverse.dropWhile
      Char.isWhitespace).reverse⟩

/-- The orchestrator state that processInput reads and writes: the thought
list, the isProcessing flag, and the input buffer. -/
structure OrchState where
  thoughts : List Thought
  isProcessing : Bool
  inputText : String
deriving DecidableEq

/-- Result of one processInput call: the final state, whether the
generation service was invoked, the value of isProcessing while awaiting
the generation call, and the text forwarded to speech output, if any. -/
structure OrchResult where
  state : OrchState
  genCalled : Bool
  busyDuringCall : Bool
  spokenText : Option String
deriving DecidableEq

/-- processInput (src/App.tsx lines 147-165). The source returns early when
the trimmed text is empty or a request is already in flight; otherwise it
sets isProcessing, clears the input buffer, awaits generateThought, on
success pushes a single thought carrying the returned text (and forwards it
to speech output in voice mode), on failure only logs the error, and resets
isProcessing in a finally block. Modelled from the spec: generateThought is
imported from services/llmService, which is not under src; per the
Generation Service contract it settles with a response text or fails, so
its outcome is passed in as an Except value. -/
def processInput (cap : Nat) (env : Env) (gen : Except Unit String)
    (text : String) (mode : Method) (s : OrchState) : OrchResult :=
  if jsTrim text = "" ∨ s.isProcessing = true then
    { state := s, genCalled := false, busyDuringCall := false, spokenText := none }
  else
    match gen with
    | .ok response =>
        { state := { thoughts := addThought cap env response mode s.thoughts
                     isProcessing := false
                     inputText := "" }
          genCalled := true
          busyDuringCall := true
          spokenText := if mode = Method.voice then some response else none }
    | .error _ =>
        { state := { thoughts := s.thoughts
                     isProcessing := false
                     inputText := "" }
          genCalled := true
          busyDuringCall := true
          spokenText := none }

/-- Per-frame opacity from src/App.tsx line 107: the front thought
(index 0) gets 1; every other thought gets
max(0.45, 0.9 - age / 120000 - index * 0.1). -/
def baseFade (index : Nat) (age : ℚ) : ℚ :=
  if index = 0 then 1
  else max (45/100) (9/10 - age / 120000 - (index : ℚ) * (1/10))

/-- One simulator tick, updateThoughts (src/App.tsx lines 96-115): every
thought moves by its velocity; a velocity component is negated when the
moved coordinate crosses the margin (padding 180 on the left and right,
180 above, innerHeight - 300 below); opacity is recomputed from age and
store index via baseFade. The moved position is stored without clamping,
and no thought is ever dropped from the list. -/
def updateThoughts (w h now : ℚ) (ts : List Thought) : List Thought :=
  ts.enum.map fun it =>
    let t := it.2
    let nx := t.x + t.vx
    let ny := t.y + t.vy
    let padding : ℚ := 180
    { t with
      x := nx
      y := ny
      vx := if nx < padding ∨ nx > w - padding then -t.vx else t.vx
      vy := if ny < padding ∨ ny > h - 300 then -t.vy else t.vy
      opacity := baseFade it.1 (now - t.createdAt) }

/-- Iterated animation frames: tick number k reads the wall clock value
nows k, matching the Date.now() call at the top of each frame. -/
def applyTicks (w h : ℚ) (nows : Nat → ℚ) : Nat → List Thought → List Thought
  | 0, ts => ts
  | n + 1, ts => applyTicks w h nows n (updateThoughts w h (nows n) ts)

/-- Innermost level of the provider JSON consumed by the relay: an optional
message content. -/
structure ProviderMessage where
  content : Option String
deriving DecidableEq

/-- One provider choice, with an optional message. -/
structure ProviderChoice where
  message : Option ProviderMessage
deriving DecidableEq

/-- Parsed provider payload: an optional list of choices. Each level may be
absent, matching the optional chain in the relay. -/
structure ProviderData where
  choices : Option (List ProviderChoice)
deriving DecidableEq

/-- The optional chain data.choices?.[0]?.message?.content from
src/App.tsx line 313, before the nullish coalescing with "". -/
def chainContent (d : ProviderData) : Option String :=
  ((d.choices.bind List.head?).bind ProviderChoice.message).bind
    ProviderMessage.content

/-- Body of a relay response: either a text payload or an error payload. -/
inductive RelayBody
  | textBody (t : String)
  | errorBody (e : String)
deriving DecidableEq

/-- An HTTP response produced by the relay handler: status plus JSON body. -/
structure RelayResponse where
  status : Nat
  body : RelayBody
deriving DecidableEq

/-- The serverless relay handler (src/App.tsx lines 277-318): any method
other than POST is answered 405 with an error payload; otherwise the
provider round trip (fetch plus response.json(), modelled together as one
Except outcome) either yields parsed data, answered 200 with the extracted
content where a broken chain or absent content falls back to the empty
string, or throws, answered 500 with the fixed error payload. -/
def handler (method : String) (provider : Except Unit ProviderData) :
    RelayResponse :=
  if method ≠ "POST" then
    { status := 405, body := RelayBody.errorBody "Method not allowed" }
  else
    match provider with
    | .ok data =>
        { status := 200, body := RelayBody.textBody ((chainContent data).getD "") }
    | .error _ =>
        { status := 500, body := RelayBody.errorBody "LLM failure" }

/-- Horizontal margin band of the simulator, together with a speed no
larger than the band width: the hypothesis under which reflection keeps a
thought near the band. -/
abbrev inBandX (w : ℚ) (t : Thought) : Prop :=
  180 ≤ t.x ∧ t.x ≤ w - 180 ∧ |t.vx| ≤ (w - 180) - 180

/-- Vertical margin band of the simulator (padding 180 above, h - 300
below), together with a speed no larger than the band width. -/
abbrev inBandY (h : ℚ) (t : Thought) : Prop :=
  180 ≤ t.y ∧ t.y ≤ h - 300 ∧ |t.vy| ≤ (h - 300) - 180

/-- One-axis reflection invariant: the speed fits in the band, the
coordinate sits within one step of the band, and whenever the coordinate
is outside the band the velocity points back toward it. -/
abbrev axisInv (p q x v : ℚ) : Prop :=
  |v| ≤ q - p ∧ p - |v| ≤ x ∧ x ≤ q + |v| ∧ (x < p → 0 < v) ∧ (q < x → v < 0)

/-- A concrete ambient environment for the concrete evaluations below: a
1000 by 1000 viewport, both random draws 1/2 (zero velocity), time 0. -/
def env0 : Env :=
  { innerWidth := 1000, innerHeight := 1000, rand1 := 1/2, rand2 := 1/2,
    now := 0, freshId := "id0" }

/-- An idle orchestrator state with an empty store. -/
def idle0 : OrchState :=
  { thoughts := [], isProcessing := false, inputText := "" }

/-- A concrete store of two thoughts, used to exercise capacity eviction. -/
def prevFull : List Thought :=
  [mkThought env0 "a" Method.text, mkThought env0 "b" Method.text]

/-- A concrete empty-content provider payload. -/
def dEmpty : ProviderData :=
  { choices := some [{ message := some { content := some "" } }] }

/-- A concrete motionless thought sitting at the centre of the margin band
of a 1000 by 1000 viewport. -/
def tW : Thought :=
  { id := "w", text := "w", x := 500, y := 500, vx := 0, vy := 0,
    opacity := 1, scale := 1, createdAt := 0, method := Method.text }

/-- A concrete thought just inside the left margin (x = 180.05) moving left
at 0.1 pixels per frame. -/
def t6 : Thought :=
  { id := "c", text := "c", x := 3601/20, y := 500, vx := -1/10, vy := 0,
    opacity := 1, scale := 1, createdAt := 0, method := Method.text }

/-- A concrete thought standing at the front of the store, created at time
zero. -/
def tFront : Thought :=
  { id := "f", text := "f", x := 500, y := 500, vx := 0, vy := 0,
    opacity := 1, scale := 1, createdAt := 0, method := Method.text }

/-! ## Theorems -/

/-- Truncating insertion never leaves more than cap thoughts in the store. -/
theorem addThought_length_le (cap : Nat) (env : Env) (text : String)
    (method : Method) (prev : List Thought) :
    (addThought cap env text method prev).length ≤ cap := by
  simp [addThought]

/-- Any sequence of insertions preserves the capacity bound. -/
theorem pushAll_length_le (cap : Nat) (evs : List (Env × String × Method)) :
    ∀ prev : List Thought, prev.length ≤ cap →
      (pushAll cap evs prev).length ≤ cap := by
  induction evs with
  | nil => intro prev h; simpa [pushAll] using h
  | cons e evs ih =>
      intro prev h
      have hstep : pushAll cap (e :: evs) prev =
          pushAll cap evs (addThought cap e.1 e.2.1 e.2.2 prev) := rfl
      rw [hstep]
      exact ih _ (addThought_length_le ..)

/-- With a positive cap, the freshly inserted thought is at the front. -/
theorem addThought_head (cap : Nat) (hcap : 1 ≤ cap) (env : Env)
    (text : String) (method : Method) (prev : List Thought) :
    (addThought cap env text method prev).head? =
      some (mkThought env text method) := by
  obtain ⟨k, rfl⟩ : ∃ k, cap = k + 1 := ⟨cap - 1, by omega⟩
  simp [addThought]

/-- Folding insertions over an appended singleton is one insertion into the
folded store. -/
theorem pushAll_append_single (cap : Nat) (evs : List (Env × String × Method))
    (env : Env) (text : String) (method : Method) (prev : List Thought) :
    pushAll cap (evs ++ [(env, text, method)]) prev =
      addThought cap env text method (pushAll cap evs prev) := by
  simp [pushAll, List.foldl_append]

/-- C4: starting from any store holding at most cap thoughts (cap positive,
the value of MAX_THOUGHTS being configured outside src), every sequence of
insertions keeps the store at no more than cap thoughts, the most recently
inserted thought is always at the front, and an insertion into a full store
evicts exactly the oldest (tail) entry. -/
theorem addThought_cap_front_evict (cap : Nat) (env : Env) (text : String)
    (method : Method) (prev : List Thought)
    (hcap : 1 ≤ cap) (hlen : prev.length ≤ cap) :
    (∀ evs : List (Env × String × Method),
      (pushAll cap evs prev).length ≤ cap) ∧
    (addThought cap env text method prev).head? =
      some (mkThought env text method) ∧
    (∀ evs : List (Env × String × Method),
      (pushAll cap (evs ++ [(env, text, method)]) prev).head? =
        some (mkThought env text method)) ∧
    (prev.length = cap →
      addThought cap env text method prev =
        mkThought env text method :: prev.dropLast) := by
  refine ⟨fun evs => pushAll_length_le cap evs prev hlen,
          addThought_head cap hcap env text method prev,
          fun evs => ?_, fun hfull => ?_⟩
  · rw [pushAll_append_single]
    exact addThought_head cap hcap env text method _
  · obtain ⟨k, rfl⟩ : ∃ k, cap = k + 1 := ⟨cap - 1, by omega⟩
    simp only [addThought, List.take_succ_cons]
    rw [List.dropLast_eq_take, hfull]
    simp

/-- C4 witness: inserting a third thought into the concrete full store of
capacity two places it at the front. -/
theorem addThought_cap_front_evict_wit :
    (addThought 2 env0 "c" Method.text prevFull).head? =
      some (mkThought env0 "c" Method.text) :=
  (addThought_cap_front_evict 2 env0 "c" Method.text prevFull (by decide)
    (by decide)).2.1

/-- C7: a blank utterance (empty after trimming) or a submission arriving
while a request is in flight is a no-op: the whole orchestrator state is
unchanged, the generation service is not called, and nothing is spoken. -/
theorem processInput_blank_or_busy_noop (cap : Nat) (env : Env)
    (gen : Except Unit String) (text : String) (mode : Method) (s : OrchState)
    (h : jsTrim text = "" ∨ s.isProcessing = true) :
    processInput cap env gen text mode s =
      { state := s, genCalled := false, busyDuringCall := false,
        spokenText := none } := by
  unfold processInput
  rw [if_pos h]

/-- C7 witness: submitting two spaces in the concrete idle state changes
nothing and makes no generation call. -/
theorem processInput_blank_or_busy_noop_wit :
    processInput 3 env0 (Except.ok "world") "  " Method.text idle0 =
      { state := idle0, genCalled := false, busyDuringCall := false,
        spokenText := none } :=
  processInput_blank_or_busy_noop 3 env0 (Except.ok "world") "  " Method.text
    idle0 (Or.inl (by decide))

/-- C9: the relay answers 405 to every non-POST method; a POST whose
provider call parses but carries empty or absent content is answered 200
with an empty text payload; a POST whose provider round trip throws is
answered 500 with the fixed error payload. -/
theorem handler_contract (method : String)
    (provider : Except Unit ProviderData) :
    (method ≠ "POST" → (handler method provider).status = 405) ∧
    (∀ d, method = "POST" → provider = Except.ok d →
      (chainContent d = none ∨ chainContent d = some "") →
      handler method provider =
        { status := 200, body := RelayBody.textBody "" }) ∧
    (∀ e, method = "POST" → provider = Except.error e →
      handler method provider =
        { status := 500, body := RelayBody.errorBody "LLM failure" }) := by
  refine ⟨?_, ?_, ?_⟩
  · intro hm; simp [handler, hm]
  · rintro d rfl rfl hc
    rcases hc with hc | hc <;> simp [handler, hc]
  · rintro e rfl rfl
    simp [handler]

/-- C9 witness: a GET is answered 405, a POST with the concrete
empty-content payload is answered 200 with empty text, and a POST with a
throwing provider call is answered 500. -/
theorem handler_contract_wit :
    (handler "GET" (Except.ok dEmpty)).status = 405 ∧
    handler "POST" (Except.ok dEmpty) =
      { status := 200, body := RelayBody.textBody "" } ∧
    handler "POST" (Except.error ()) =
      { status := 500, body := RelayBody.errorBody "LLM failure" } :=
  ⟨(handler_contract "GET" (Except.ok dEmpty)).1 (by decide),
   (handler_contract "POST" (Except.ok dEmpty)).2.1 dEmpty rfl rfl
     (Or.inr (by decide)),
   (handler_contract "POST" (Except.error ())).2.2 () rfl rfl⟩

/-- C1 counterexample: submitting hello from the concrete idle state with a
generation call returning world leaves a store containing exactly one
thought, whose text is world — no user thought carrying hello is ever
pushed, so the store does not gain a user thought followed by a response
thought. -/
theorem processInput_no_user_echo_cex :
    ((processInput 5 env0 (Except.ok "world") "hello" Method.text
        idle0).state.thoughts.map Thought.text) = ["world"] := by
  have hb : ¬ jsTrim "hello" = "" := by decide
  simp [processInput, hb, addThought, mkThought, idle0]

/-- C1 (amended): an accepted utterance makes the generation call with
isBusy true during it and false after, and on success exactly one thought
is pushed — the response thought, at the front of the store; no user-kind
echo of the raw input text is pushed at any point. -/
theorem processInput_success_response_only (cap : Nat) (env : Env)
    (response text : String) (mode : Method) (s : OrchState)
    (hblank : ¬ jsTrim text = "") (hidle : s.isProcessing = false) :
    processInput cap env (Except.ok response) text mode s =
      { state := { thoughts := addThought cap env response mode s.thoughts
                   isProcessing := false
                   inputText := "" }
        genCalled := true
        busyDuringCall := true
        spokenText := if mode = Method.voice then some response else none } := by
  unfold processInput
  rw [if_neg (by simp [hblank, hidle])]

/-- C1 witness: the amended statement applied to a concrete accepted
utterance. -/
theorem processInput_success_response_only_wit :
    (processInput 5 env0 (Except.ok "world") "hey" Method.text
        idle0).genCalled = true := by
  rw [processInput_success_response_only 5 env0 "world" "hey" Method.text
    idle0 (by decide) rfl]

/-- C2 counterexample: with the generation call failing, the store stays
empty — no response thought carrying a fallback sentence is pushed, so the
failure is visually silent. -/
theorem processInput_failure_no_fallback_cex :
    (processInput 5 env0 (Except.error ()) "x" Method.text
        idle0).state.thoughts = [] := by
  have hb : ¬ jsTrim "x" = "" := by decide
  simp [processInput, hb, idle0]

/-- C2 (amended): when the generation call fails, no thought at all is
pushed — the store is unchanged and the failure is only logged — while
isBusy still returns to false and nothing is spoken. -/
theorem processInput_failure_silent (cap : Nat) (env : Env) (e : Unit)
    (text : String) (mode : Method) (s : OrchState)
    (hblank : ¬ jsTrim text = "") (hidle : s.isProcessing = false) :
    processInput cap env (Except.error e) text mode s =
      { state := { thoughts := s.thoughts, isProcessing := false,
                   inputText := "" }
        genCalled := true
        busyDuringCall := true
        spokenText := none } := by
  unfold processInput
  rw [if_neg (by simp [hblank, hidle])]

/-- C2 witness: the amended statement applied to a concrete failing call. -/
theorem processInput_failure_silent_wit :
    (processInput 5 env0 (Except.error ()) "hey" Method.voice
        idle0).state.isProcessing = false := by
  rw [processInput_failure_silent 5 env0 () "hey" Method.voice idle0
    (by decide) rfl]

/-- C3 counterexample: a successful generation call returning the empty
string results in a thought with empty text being pushed — an empty-looking
thought, with no placeholder substituted. -/
theorem processInput_pushes_empty_text_cex :
    ((processInput 5 env0 (Except.ok "") "hi" Method.text
        idle0).state.thoughts.map Thought.text) = [""] := by
  have hb : ¬ jsTrim "hi" = "" := by decide
  simp [processInput, hb, addThought, mkThought, idle0]

/-- C3 (amended): on success the pushed response thought carries the
returned text verbatim, even when that text is empty or whitespace-only;
no neutral placeholder is substituted anywhere. -/
theorem processInput_empty_response_verbatim (cap : Nat) (env : Env)
    (response text : String) (mode : Method) (s : OrchState)
    (hcap : 1 ≤ cap) (hblank : ¬ jsTrim text = "")
    (hidle : s.isProcessing = false) (hws : jsTrim response = "") :
    ((processInput cap env (Except.ok response) text mode
        s).state.thoughts.head?.map Thought.text) = some response := by
  unfold processInput
  rw [if_neg (by simp [hblank, hidle])]
  show ((addThought cap env response mode s.thoughts).head?.map
    Thought.text) = some response
  rw [addThought_head cap hcap env response mode s.thoughts]
  rfl

/-- C3 witness: a whitespace-only response is pushed verbatim. -/
theorem processInput_empty_response_verbatim_wit :
    ((processInput 5 env0 (Except.ok " ") "hey" Method.text
        idle0).state.thoughts.head?.map Thought.text) = some " " :=
  processInput_empty_response_verbatim 5 env0 " " "hey" Method.text idle0
    (by decide) (by decide) rfl (by decide)

/-- C10 counterexample: with the concrete 1000-pixel-high viewport the
spawn point is at y = 420, which is 80 pixels above the vertical centre
500 — not at the viewport centre. -/
theorem mkThought_not_center_cex :
    (mkThought env0 "a" Method.text).y = 420 ∧
    ¬ ((mkThought env0 "a" Method.text).y = env0.innerHeight / 2) := by
  constructor <;> norm_num [mkThought, env0]

/-- C10 (amended): every thought is created with opacity exactly 0,
horizontally centred but 80 pixels above the vertical centre, with each
velocity component of magnitude at most 0.125; the created opacity 0 is
below the 0.45 floor, so a freshly pushed thought violates the floor band
until a simulation tick recomputes its opacity. -/
theorem mkThought_spawn_fields (env : Env) (text : String) (method : Method)
    (h1 : 0 ≤ env.rand1) (h2 : env.rand1 < 1)
    (h3 : 0 ≤ env.rand2) (h4 : env.rand2 < 1) :
    (mkThought env text method).opacity = 0 ∧
    (mkThought env text method).x = env.innerWidth / 2 ∧
    (mkThought env text method).y = env.innerHeight / 2 - 80 ∧
    |(mkThought env text method).vx| ≤ 1/8 ∧
    |(mkThought env text method).vy| ≤ 1/8 ∧
    (mkThought env text method).opacity < 45/100 := by
  refine ⟨rfl, rfl, rfl, ?_, ?_, by norm_num [mkThought]⟩
  · show |(env.rand1 - 1/2) * (1/4)| ≤ 1/8
    rw [abs_le]
    constructor <;> linarith
  · show |(env.rand2 - 1/2) * (1/4)| ≤ 1/8
    rw [abs_le]
    constructor <;> linarith

/-- C10 witness: the amended statement applied to the concrete environment. -/
theorem mkThought_spawn_fields_wit :
    (mkThought env0 "w" Method.voice).opacity = 0 :=
  (mkThought_spawn_fields env0 "w" Method.voice (by norm_num [env0])
    (by norm_num [env0]) (by norm_num [env0]) (by norm_num [env0])).1

/-- C5 counterexample: the front thought at age 120000 ms (a full decay
window) keeps opacity 1 after the per-frame update — it never reaches the
0.45 floor, so the claimed band dynamics fail at store index 0. -/
theorem front_opacity_never_floor_cex :
    ((updateThoughts 1000 1000 120000 [tFront]).map Thought.opacity = [1]) ∧
    ¬ ((1 : ℚ) = 45/100) := by
  constructor
  · simp [updateThoughts, tFront, baseFade, List.enum, List.enumFrom]
  · norm_num

/-- C5 (amended): for every thought not at the front of the store
(index at least 1) and every nonnegative age, the per-frame opacity lies in
[0.45, 1], is non-increasing as age grows, and equals the 0.45 floor for
every age of at least the 120000 ms decay window; the front thought
(index 0) instead has opacity pinned to 1 at every age. -/
theorem baseFade_floor_band_mono (index : Nat) (age age' : ℚ)
    (hidx : 1 ≤ index) (hage : 0 ≤ age) :
    45/100 ≤ baseFade index age ∧ baseFade index age ≤ 1 ∧
    (age ≤ age' → baseFade index age' ≤ baseFade index age) ∧
    ((120000 : ℚ) ≤ age → baseFade index age = 45/100) ∧
    (∀ a : ℚ, baseFade 0 a = 1) := by
  have hne : index ≠ 0 := by omega
  have hic : (1 : ℚ) ≤ (index : ℚ) := by exact_mod_cast hidx
  have hm : (1 : ℚ)/10 ≤ (index : ℚ) * (1/10) := by linarith
  have hd : (0 : ℚ) ≤ age / 120000 := by positivity
  refine ⟨?_, ?_, ?_, ?_, fun a => by simp [baseFade]⟩
  · rw [baseFade, if_neg hne]
    exact le_max_left _ _
  · rw [baseFade, if_neg hne]
    apply max_le
    · norm_num
    · linarith
  · intro hle
    rw [baseFade, if_neg hne, baseFade, if_neg hne]
    apply max_le_max (le_refl _)
    linarith
  · intro hbig
    rw [baseFade, if_neg hne]
    apply max_eq_left
    have hone : (1 : ℚ) ≤ age / 120000 := by linarith
    linarith

/-- C5 witness: the amended statement applied at store index 1 and age 0. -/
theorem baseFade_floor_band_mono_wit :
    45/100 ≤ baseFade 1 0 :=
  (baseFade_floor_band_mono 1 0 1 (by norm_num) (by norm_num)).1

/-- One reflection step of the simulator preserves the one-axis invariant:
speed unchanged in magnitude, coordinate within one step of the band, and
an out-of-band coordinate always paired with an inward velocity. -/
theorem axisInv_step (p q x v : ℚ) (h : axisInv p q x v) :
    axisInv p q (x + v) (if x + v < p ∨ x + v > q then -v else v) := by
  obtain ⟨hv, hlo, hhi, hb, ha⟩ := h
  have hv0 : 0 ≤ |v| := abs_nonneg v
  have hpq : p ≤ q := by linarith
  by_cases hcond : x + v < p ∨ x + v > q
  · rw [if_pos hcond]
    rcases hcond with hl | hr
    · have hx : p ≤ x := by
        by_contra hx
        push_neg at hx
        have hvpos := hb hx
        rw [abs_of_pos hvpos] at hlo
        linarith
      have hvneg : v < 0 := by linarith
      have hva : |v| = -v := abs_of_neg hvneg
      refine ⟨by simpa [abs_neg] using hv, ?_, ?_, ?_, ?_⟩
      · rw [abs_neg, hva]; linarith
      · rw [abs_neg, hva]; linarith
      · intro _; linarith
      · intro hq; linarith
    · have hx : x ≤ q := by
        by_contra hx
        push_neg at hx
        have hvneg := ha hx
        rw [abs_of_neg hvneg] at hhi
        linarith
      have hvpos : 0 < v := by linarith
      have hva : |v| = v := abs_of_pos hvpos
      refine ⟨by simpa [abs_neg] using hv, ?_, ?_, ?_, ?_⟩
      · rw [abs_neg, hva]; linarith
      · rw [abs_neg, hva]; linarith
      · intro hlt; linarith
      · intro _; linarith
  · rw [if_neg hcond]
    push_neg at hcond
    obtain ⟨h1, h2⟩ := hcond
    exact ⟨hv, by linarith, by linarith,
      fun hlt => absurd hlt (by linarith),
      fun hgt => absurd hgt (by linarith)⟩

/-- Both-axes invariant for a thought under the simulator margins. -/
abbrev thoughtInv (w h : ℚ) (t : Thought) : Prop :=
  axisInv 180 (w - 180) t.x t.vx ∧ axisInv 180 (h - 300) t.y t.vy

/-- A member of a mapped enumeration is the image of a member of the list. -/
theorem mem_of_enumFrom_map {α β : Type} (f : Nat × α → β) (b : β) :
    ∀ (k : Nat) (ts : List α), b ∈ (ts.enumFrom k).map f →
      ∃ i t, t ∈ ts ∧ b = f (i, t) := by
  intro k ts
  induction ts generalizing k with
  | nil => simp [List.enumFrom]
  | cons a as ih =>
      intro hb
      simp only [List.enumFrom, List.map_cons, List.mem_cons] at hb
      rcases hb with hb | hb
      · exact ⟨k, a, List.mem_cons_self a as, hb⟩
      · obtain ⟨i, t, ht, rfl⟩ := ih (k + 1) hb
        exact ⟨i, t, List.mem_cons_of_mem a ht, rfl⟩

/-- One tick preserves the both-axes invariant of every store member. -/
theorem updateThoughts_inv (w h now : ℚ) (ts : List Thought)
    (hts : ∀ t ∈ ts, thoughtInv w h t) :
    ∀ t' ∈ updateThoughts w h now ts, thoughtInv w h t' := by
  intro t' ht'
  rw [updateThoughts, List.enum] at ht'
  obtain ⟨i, t, ht, rfl⟩ := mem_of_enumFrom_map _ t' 0 ts ht'
  obtain ⟨hx, hy⟩ := hts t ht
  exact ⟨axisInv_step 180 (w - 180) t.x t.vx hx,
         axisInv_step 180 (h - 300) t.y t.vy hy⟩

/-- Any number of ticks preserves the both-axes invariant. -/
theorem applyTicks_inv (w h : ℚ) (nows : Nat → ℚ) :
    ∀ (n : Nat) (ts : List Thought), (∀ t ∈ ts, thoughtInv w h t) →
      ∀ t' ∈ applyTicks w h nows n ts, thoughtInv w h t' := by
  intro n
  induction n with
  | zero => intro ts hts t' ht'; exact hts t' ht'
  | succ n ih =>
      intro ts hts t' ht'
      exact ih _ (updateThoughts_inv w h (nows n) ts hts) t' ht'

/-- C6 (amended): a thought that starts inside the margin band with a speed
no larger than the band width stays, over any number of ticks, within the
band enlarged by one velocity step on each side; the exact band
[180, w - 180] x [180, h - 300] itself is not invariant because the source
negates the velocity after storing the moved position, without clamping. -/
theorem tick_bounded_extended (w h : ℚ) (nows : Nat → ℚ) (ts : List Thought)
    (hts : ∀ t ∈ ts, inBandX w t ∧ inBandY h t) (n : Nat) :
    ∀ t' ∈ applyTicks w h nows n ts,
      (180 - |t'.vx| ≤ t'.x ∧ t'.x ≤ (w - 180) + |t'.vx|) ∧
      (180 - |t'.vy| ≤ t'.y ∧ t'.y ≤ (h - 300) + |t'.vy|) := by
  have hinv : ∀ t ∈ ts, thoughtInv w h t := by
    intro t ht
    obtain ⟨⟨hx1, hx2, hxv⟩, hy1, hy2, hyv⟩ := hts t ht
    have hax : 0 ≤ |t.vx| := abs_nonneg t.vx
    have hay : 0 ≤ |t.vy| := abs_nonneg t.vy
    exact ⟨⟨hxv, by linarith, by linarith,
            fun hc => absurd hc (by linarith), fun hc => absurd hc (by linarith)⟩,
           ⟨hyv, by linarith, by linarith,
            fun hc => absurd hc (by linarith), fun hc => absurd hc (by linarith)⟩⟩
  intro t' ht'
  obtain ⟨⟨_, h1, h2, _, _⟩, _, h3, h4, _, _⟩ :=
    applyTicks_inv w h nows n ts hinv t' ht'
  exact ⟨⟨h1, h2⟩, h3, h4⟩

/-- C6 witness: the amended statement applied to the concrete store holding
the motionless centred thought, after one tick. -/
theorem tick_bounded_extended_wit :
    (180 : ℚ) - |tW.vx| ≤ tW.x ∧ tW.x ≤ (1000 - 180) + |tW.vx| ∧
    (180 : ℚ) - |tW.vy| ≤ tW.y ∧ tW.y ≤ (1000 - 300) + |tW.vy| := by
  have hstep : ∀ ts : List Thought,
      applyTicks 1000 1000 (fun _ => 0) 1 ts =
        updateThoughts 1000 1000 0 ts := fun ts => rfl
  have himg : applyTicks 1000 1000 (fun _ => 0) 1 [tW] = [tW] := by
    rw [hstep]
    simp only [updateThoughts, List.enum, List.enumFrom, List.map]
    norm_num [tW, baseFade]
  have hmem : tW ∈ applyTicks 1000 1000 (fun _ => 0) 1 [tW] := by
    rw [himg]
    exact List.mem_singleton.mpr rfl
  have hband : ∀ t ∈ [tW], inBandX 1000 t ∧ inBandY 1000 t := by
    intro t ht
    rw [List.mem_singleton] at ht
    subst ht
    refine ⟨⟨?_, ?_, ?_⟩, ?_, ?_, ?_⟩ <;> norm_num [tW]
  have h := tick_bounded_extended 1000 1000 (fun _ => 0) [tW] hband 1 tW hmem
  exact ⟨h.1.1, h.1.2, h.2.1, h.2.2⟩

/-- C6 counterexample: the concrete thought t6 starts inside the margin
band at x = 180.05, yet after one tick its x coordinate is 179.95, outside
[180, 820]: reflection without clamping lets the position cross the
margin. -/
theorem tick_escapes_band_cex :
    ((180 : ℚ) ≤ t6.x ∧ t6.x ≤ 1000 - 180) ∧
    ((updateThoughts 1000 1000 0 [t6]).map Thought.x = [3599/20]) ∧
    ¬ ((180 : ℚ) ≤ 3599/20) := by
  refine ⟨⟨by norm_num [t6], by norm_num [t6]⟩, ?_, by norm_num⟩
  simp only [updateThoughts, List.enum, List.enumFrom, List.map]
  norm_num [t6, baseFade]

/-- One tick leaves the identity sequence of the store untouched: the
simulator is a pure per-member map with no removal predicate. -/
theorem updateThoughts_map_id (w h now : ℚ) (ts : List Thought) :
    (updateThoughts w h now ts).map Thought.id = ts.map Thought.id := by
  rw [updateThoughts, List.enum]
  generalize 0 = k
  induction ts generalizing k with
  | nil => simp [List.enumFrom]
  | cons a as ih => simp [List.enumFrom, ih]

/-- Any number of ticks leaves the identity sequence untouched. -/
theorem applyTicks_map_id (w h : ℚ) (nows : Nat → ℚ) :
    ∀ (n : Nat) (ts : List Thought),
      (applyTicks w h nows n ts).map Thought.id = ts.map Thought.id := by
  intro n
  induction n with
  | zero => intro ts; rfl
  | succ n ih =>
      intro ts
      have hstep : applyTicks w h nows (n + 1) ts =
          applyTicks w h nows n (updateThoughts w h (nows n) ts) := rfl
      rw [hstep, ih, updateThoughts_map_id]

/-- C8 counterexample: a freshly created thought has opacity 0, the spec
removal trigger, yet no number of ticks ever makes it absent from the
published store — the simulator removes nothing. -/
theorem ephemeral_never_removed_cex :
    (mkThought env0 "hello" Method.text).opacity ≤ 0 ∧
    ¬ ∃ n : Nat, (mkThought env0 "hello" Method.text).id ∉
        ((applyTicks 1000 1000 (fun _ => 0) n
            [mkThought env0 "hello" Method.text]).map Thought.id) := by
  constructor
  · exact le_of_eq rfl
  · rintro ⟨n, hn⟩
    rw [applyTicks_map_id] at hn
    simp at hn

/-- C8 (amended): the simulator never removes any thought, of any kind:
every sequence of ticks preserves the store's identity sequence (same
thoughts, same order, same count), so a thought leaves the store only via
capacity eviction at insertion, never via the per-frame update. -/
theorem simulator_never_removes (w h : ℚ) (nows : Nat → ℚ) (n : Nat)
    (ts : List Thought) :
    (applyTicks w h nows n ts).map Thought.id = ts.map Thought.id :=
  applyTicks_map_id w h nows n ts

end Wishdumb
